import Mathlib

/-!
Verification of the BidHub auction core: a shallow embedding of the
SQL-procedural functions `place_bid`, `activate_listing`-adjacent wallet
operations `credit_wallet` / `debit_wallet`, and the settlement sweeper
`end_expired_auctions` (src/bidding-site/supabase/schema.sql and
src/bidding-site/supabase/reset-and-recreate.sql), together with proofs
and refutations of the spec's claims about them.

Modelling conventions: UUIDs are `Nat` (with `0` playing the role of the
all-zero UUID constant used by the sweeper's COALESCE), `NUMERIC(12,2)`
amounts are `Int` (fixed-point points), and `TIMESTAMPTZ` is a `Nat`
wall-clock value passed in as `now`. Each table is a list of rows.
-/

namespace BidHub

/-- Enum `listing_status` from the schema. -/
inductive ListingStatus
  | DRAFT | SCHEDULED | ACTIVE | ENDED | CANCELLED
deriving DecidableEq

/-- Enum `transaction_type` from the schema. -/
inductive TransactionType
  | TOP_UP | LISTING_FEE | BID_DEDUCTION | AUCTION_WIN_DEDUCTION | REFUND
deriving DecidableEq

/-- Enum `notification_type` from the schema. -/
inductive NotificationType
  | BID_PLACED | HIGHEST_BIDDER | OUTBID | AUCTION_ENDING_SOON
  | AUCTION_WON | AUCTION_LOST | NEW_BID_RECEIVED | ORDER_CONFIRMED
deriving DecidableEq

/-- Row of `public.profiles` (the fields the core reads). -/
structure Profile where
  id : Nat
  is_suspended : Bool
deriving DecidableEq

/-- Row of `public.listings` (the fields the core reads and writes). -/
structure Listing where
  id : Nat
  seller_id : Nat
  title : String
  starting_price : Int
  minimum_increment : Int
  current_price : Int
  highest_bidder_id : Option Nat
  bid_count : Int
  end_time : Nat
  status : ListingStatus
deriving DecidableEq

/-- Row of `public.bids` (append-only). -/
structure Bid where
  id : Nat
  listing_id : Nat
  bidder_id : Nat
  amount : Int
deriving DecidableEq

/-- Row of `public.transactions` (the immutable ledger; `amount` is signed). -/
structure Txn where
  user_id : Nat
  type : TransactionType
  amount : Int
  description : String
  listing_id : Option Nat
deriving DecidableEq

/-- Row of `public.notifications`. -/
structure Notif where
  user_id : Nat
  type : NotificationType
  title : String
  message : String
  listing_id : Option Nat
deriving DecidableEq

/-- The transactional store: one list per table, plus a counter standing in
for `gen_random_uuid()` when `place_bid` mints a bid id.
Wallets are `(user_id, balance)` pairs; `user_id` is the primary key. -/
structure DB where
  profiles : List Profile
  wallets : List (Nat × Int)
  transactions : List Txn
  listings : List Listing
  bids : List Bid
  notifications : List Notif
  nextId : Nat
deriving DecidableEq

/-- `SELECT ... FROM profiles WHERE id = uid`. -/
def DB.findProfile (db : DB) (uid : Nat) : Option Profile :=
  db.profiles.find? (fun p => p.id == uid)

/-- `SELECT balance FROM wallets WHERE user_id = uid`. -/
def DB.findWallet (db : DB) (uid : Nat) : Option Int :=
  (db.wallets.find? (fun w => w.1 == uid)).map (fun w => w.2)

/-- `SELECT * FROM listings WHERE id = lid`. -/
def DB.findListing (db : DB) (lid : Nat) : Option Listing :=
  db.listings.find? (fun l => l.id == lid)

/-- Result of `place_bid`: the `jsonb_build_object` success payload or the
error message of the rejecting branch. -/
inductive BidResult
  | ok (bid_id : Nat) (previous_highest_bidder_id : Option Nat)
      (listing_title : String) (seller_id : Nat)
  | err (msg : String)
deriving DecidableEq

def BidResult.isOk : BidResult → Bool
  | .ok _ _ _ _ => true
  | .err _ => false

/-- The `format('Insufficient bid points. You need %s but have %s.', ...)`
message of `place_bid` check 6 (`COALESCE(v_wallet_balance, 0)` for a
missing wallet row). -/
def insufficientPointsMsg (need bal : Int) : String :=
  "Insufficient bid points. You need " ++ toString need ++ " but have " ++
    toString bal ++ "."

/-- The `format('Bid must be at least %s.', v_minimum_bid)` message of
`place_bid` check 7. -/
def belowMinimumMsg (m : Int) : String :=
  "Bid must be at least " ++ toString m ++ "."

/-- Shallow embedding of `public.place_bid` (schema.sql lines 292-407;
identical in reset-and-recreate.sql). The checks appear in source order:
suspension (`IS TRUE`, so a missing profile row passes), listing existence,
self-bid, ACTIVE status, end time, positive amount, wallet balance
(a missing wallet row falls into the insufficient branch via COALESCE),
minimum bid, and the same-bidder same-amount re-bid; then the atomic
insert of the bid row and update of the listing row. -/
def place_bid (db : DB) (now : Nat) (p_listing_id p_bidder_id : Nat)
    (p_amount : Int) : BidResult × DB :=
  let v_bidder_suspended : Option Bool :=
    (db.findProfile p_bidder_id).map (fun p => p.is_suspended)
  if v_bidder_suspended = some true then
    (.err "Your account is suspended.", db)
  else
    match db.findListing p_listing_id with
    | none => (.err "Listing not found.", db)
    | some v_listing =>
      if v_listing.seller_id = p_bidder_id then
        (.err "You cannot bid on your own listing.", db)
      else if v_listing.status ≠ .ACTIVE then
        (.err "This auction is not active.", db)
      else if v_listing.end_time ≤ now then
        (.err "This auction has ended.", db)
      else if p_amount ≤ 0 then
        (.err "Bid amount must be greater than 0.", db)
      else
        match db.findWallet p_bidder_id with
        | none => (.err (insufficientPointsMsg p_amount 0), db)
        | some v_wallet_balance =>
          if v_wallet_balance < p_amount then
            (.err (insufficientPointsMsg p_amount v_wallet_balance), db)
          else
            let v_is_first_bid := v_listing.highest_bidder_id.isNone
            let v_minimum_bid :=
              if v_is_first_bid then v_listing.current_price
              else v_listing.current_price + v_listing.minimum_increment
            if p_amount < v_minimum_bid then
              (.err (belowMinimumMsg v_minimum_bid), db)
            else if v_listing.highest_bidder_id = some p_bidder_id ∧
                p_amount = v_listing.current_price then
              (.err "You are already the highest bidder at this amount.", db)
            else
              let v_bid_id := db.nextId
              (.ok v_bid_id v_listing.highest_bidder_id v_listing.title
                  v_listing.seller_id,
               { db with
                 bids := db.bids ++ [⟨v_bid_id, p_listing_id, p_bidder_id, p_amount⟩],
                 listings := db.listings.map (fun l =>
                   if l.id = p_listing_id then
                     { l with current_price := p_amount,
                              highest_bidder_id := some p_bidder_id,
                              bid_count := l.bid_count + 1 }
                   else l),
                 nextId := db.nextId + 1 })

/-- Result of `credit_wallet` / `debit_wallet`. -/
inductive WalletResult
  | ok
  | err (msg : String)
deriving DecidableEq

/-- Shallow embedding of `public.credit_wallet`
(reset-and-recreate.sql lines 577-604): positive-amount guard, balance
increment (a no-op `UPDATE` on a missing wallet reports not-found), and
the `TOP_UP` ledger entry. -/
def credit_wallet (db : DB) (p_user_id : Nat) (p_amount : Int)
    (p_description : String) : WalletResult × DB :=
  if p_amount ≤ 0 then (.err "Amount must be positive.", db)
  else
    match db.findWallet p_user_id with
    | none => (.err "Wallet not found.", db)
    | some _ =>
      (.ok,
       { db with
         wallets := db.wallets.map (fun w =>
           if w.1 = p_user_id then (w.1, w.2 + p_amount) else w),
         transactions := db.transactions ++
           [⟨p_user_id, .TOP_UP, p_amount, p_description, none⟩] })

/-- The insufficient-funds message of `debit_wallet`. -/
def insufficientDebitMsg (need bal : Int) : String :=
  "Insufficient bid points. You need " ++ toString need ++
    " points but have " ++ toString bal ++ "."

/-- Shallow embedding of `public.debit_wallet`
(reset-and-recreate.sql lines 611-651): positive-amount guard, wallet
lookup under row lock, insufficient-funds guard, balance decrement, and
the signed negative ledger entry of the caller-given kind. -/
def debit_wallet (db : DB) (p_user_id : Nat) (p_amount : Int)
    (p_description : String) (p_type : TransactionType) : WalletResult × DB :=
  if p_amount ≤ 0 then (.err "Amount must be positive.", db)
  else
    match db.findWallet p_user_id with
    | none => (.err "Wallet not found.", db)
    | some v_balance =>
      if v_balance < p_amount then
        (.err (insufficientDebitMsg p_amount v_balance), db)
      else
        (.ok,
         { db with
           wallets := db.wallets.map (fun w =>
             if w.1 = p_user_id then (w.1, w.2 - p_amount) else w),
           transactions := db.transactions ++
             [⟨p_user_id, p_type, -p_amount, p_description, none⟩] })

/-- One iteration of the settlement loop of `public.end_expired_auctions`
(schema.sql lines 488-542): mark the listing ENDED; if a highest bidder
exists, debit their wallet with the in-UPDATE guard
`balance >= current_price` (the row is left untouched when underfunded),
insert the `AUCTION_WIN_DEDUCTION` ledger entry (unconditionally, exactly
as in the source), and the two winner notifications; finally notify every
distinct other bidder (`!= COALESCE(highest_bidder_id, zero-uuid)`). -/
def settleOne (db : DB) (v_listing : Listing) : DB :=
  let db1 : DB := { db with listings := db.listings.map (fun l =>
    if l.id = v_listing.id then { l with status := .ENDED } else l) }
  let db2 : DB :=
    match v_listing.highest_bidder_id with
    | none => db1
    | some w =>
      let dbW : DB := { db1 with wallets := db1.wallets.map (fun p =>
        if p.1 = w ∧ v_listing.current_price ≤ p.2 then
          (p.1, p.2 - v_listing.current_price)
        else p) }
      let dbT : DB := { dbW with transactions := dbW.transactions ++
        [⟨w, .AUCTION_WIN_DEDUCTION, -v_listing.current_price,
          "Won auction: " ++ v_listing.title, some v_listing.id⟩] }
      { dbT with notifications := dbT.notifications ++
        [⟨w, .AUCTION_WON, "Auction Won!",
          "Congratulations! You won " ++ v_listing.title ++ ".",
          some v_listing.id⟩,
         ⟨w, .ORDER_CONFIRMED, "Order Confirmed",
          "Your order for " ++ v_listing.title ++ " has been confirmed.",
          some v_listing.id⟩] }
  let losers : List Nat := ((db2.bids.filter (fun b =>
      b.listing_id == v_listing.id &&
      b.bidder_id != v_listing.highest_bidder_id.getD 0)).map
        (fun b => b.bidder_id)).dedup
  { db2 with notifications := db2.notifications ++ losers.map (fun u =>
      ⟨u, .AUCTION_LOST, "Auction Ended",
       "The auction for " ++ v_listing.title ++ " has ended. You did not win.",
       some v_listing.id⟩) }

/-- Shallow embedding of `public.end_expired_auctions`
(schema.sql lines 474-546): select the `ACTIVE` listings whose `end_time`
has passed, settle each in turn, counting the settled rows. -/
def end_expired_auctions (db : DB) (now : Nat) : Nat × DB :=
  let expired := db.listings.filter (fun l =>
    l.status == .ACTIVE && decide (l.end_time ≤ now))
  expired.foldl (fun acc l => (acc.1 + 1, settleOne acc.2 l)) (0, db)

/-- The four core operations of the spec, for reasoning about operation
sequences. -/
inductive Op
  | placeBid (now lid uid : Nat) (amount : Int)
  | credit (uid : Nat) (amount : Int) (descr : String)
  | debit (uid : Nat) (amount : Int) (descr : String) (kind : TransactionType)
  | settle (now : Nat)

/-- Apply one core operation, discarding the returned payload. -/
def applyOp (db : DB) : Op → DB
  | .placeBid now lid uid amount => (place_bid db now lid uid amount).2
  | .credit uid amount descr => (credit_wallet db uid amount descr).2
  | .debit uid amount descr kind => (debit_wallet db uid amount descr kind).2
  | .settle now => (end_expired_auctions db now).2

/-- Apply a sequence of core operations left to right. -/
def applyOps (db : DB) (ops : List Op) : DB := ops.foldl applyOp db

/-- Sum of the signed ledger amounts recorded for one user. -/
def ledgerSum (db : DB) (uid : Nat) : Int :=
  ((db.transactions.filter (fun t => t.user_id == uid)).map
    (fun t => t.amount)).sum

/-- The spec's reconciliation invariant: each wallet's balance equals the
sum of that owner's ledger entries. -/
def Reconciled (db : DB) : Prop :=
  ∀ w ∈ db.wallets, ledgerSum db w.1 = w.2

/-- The spec's non-negativity invariant: every wallet balance is `>= 0`
(the `wallets_balance_non_negative` CHECK). -/
def NonNegBalances (db : DB) : Prop :=
  ∀ w ∈ db.wallets, 0 ≤ w.2

/-- The schema CHECK `listings_increment_positive`: every listing row has
`minimum_increment >= 1`. -/
def IncrPositive (db : DB) : Prop :=
  ∀ l ∈ db.listings, 1 ≤ l.minimum_increment

/-- Uniqueness of the `wallets` primary key `user_id`. -/
def WalletKeysNodup (db : DB) : Prop :=
  (db.wallets.map Prod.fst).Nodup

instance (db : DB) : Decidable (Reconciled db) := by
  unfold Reconciled; infer_instance

instance (db : DB) : Decidable (NonNegBalances db) := by
  unfold NonNegBalances; infer_instance

instance (db : DB) : Decidable (IncrPositive db) := by
  unfold IncrPositive; infer_instance

instance (db : DB) : Decidable (WalletKeysNodup db) := by
  unfold WalletKeysNodup; infer_instance

/-- The state change `place_bid` commits when every check passes
(steps 9-10 of the source: append the bid row, update the one listing). -/
def bidSuccessUpdate (db : DB) (lid uid : Nat) (amt : Int) : DB :=
  { db with
    bids := db.bids ++ [⟨db.nextId, lid, uid, amt⟩],
    listings := db.listings.map (fun l =>
      if l.id = lid then
        { l with current_price := amt, highest_bidder_id := some uid,
                 bid_count := l.bid_count + 1 }
      else l),
    nextId := db.nextId + 1 }

/-- Parameters of one `PlaceBid` invocation. -/
structure BidCall where
  now : Nat
  listing_id : Nat
  bidder_id : Nat
  amount : Int

/-- The minimum valid bid computed by `place_bid` from a state: the
current price for a first bid, otherwise current price plus increment. -/
def minimumBidOf (db : DB) (lid : Nat) : Int :=
  match db.findListing lid with
  | none => 0
  | some l =>
      if l.highest_bidder_id.isNone then l.current_price
      else l.current_price + l.minimum_increment

/-- Run a sequence of `PlaceBid` calls; for each call on listing `lid`
that is accepted, record the accepted amount paired with the minimum bid
computed from the state immediately before that call. -/
def acceptedWithMin (db : DB) (lid : Nat) : List BidCall → List (Int × Int)
  | [] => []
  | c :: rest =>
    let r := place_bid db c.now c.listing_id c.bidder_id c.amount
    (if c.listing_id = lid ∧ r.1.isOk = true then
      [(c.amount, minimumBidOf db lid)]
     else []) ++ acceptedWithMin r.2 lid rest

/-- A small demonstration store: seller `9`, buyers `2` and `3`, one ACTIVE
listing `1` with starting price 1000 and increment 100 ending at time 100. -/
def demoDB : DB :=
  { profiles := [⟨9, false⟩, ⟨2, false⟩, ⟨3, false⟩],
    wallets := [(9, 0), (2, 5000), (3, 5000)],
    transactions := [],
    listings := [⟨1, 9, "Vintage bag", 1000, 100, 1000, none, 0, 100, .ACTIVE⟩],
    bids := [],
    notifications := [],
    nextId := 7 }

/-- Store for the reconciliation scenario: buyer `1` holds the high bid of
100 on expired listing `10`, but has only a 50-point balance, funded by a
single recorded top-up. -/
def reconBase : DB :=
  { profiles := [⟨1, false⟩, ⟨2, false⟩],
    wallets := [(1, 0)],
    transactions := [],
    listings := [⟨10, 2, "Vintage watch", 100, 10, 100, some 1, 1, 5, .ACTIVE⟩],
    bids := [⟨0, 10, 1, 100⟩],
    notifications := [],
    nextId := 1 }

/-- `reconBase` after crediting buyer `1` with 50 points: a reconciled
state (balance 50, one `TOP_UP +50` ledger entry). -/
def reconStart : DB := (credit_wallet reconBase 1 50 "Top-up").2

/-- `reconStart` after the settlement sweep runs at time 5, when listing
`10` has expired with underfunded winner `1`. -/
def reconAfter : DB := (end_expired_auctions reconStart 5).2

/-- Store for the nonexistent-bidder scenario: only seller `9` has a
profile and a wallet; user `5` does not exist. -/
def noBidderDB : DB :=
  { profiles := [⟨9, false⟩],
    wallets := [(9, 0)],
    transactions := [],
    listings := [⟨1, 9, "Leather shoes", 100, 10, 100, none, 0, 50, .ACTIVE⟩],
    bids := [],
    notifications := [],
    nextId := 0 }

/-- Store for the degenerate re-bid scenario: buyer `2` already holds the
high bid of 1000 on listing `1` (increment 100) and re-bids 1000. -/
def rebidDB : DB :=
  { profiles := [⟨9, false⟩, ⟨2, false⟩],
    wallets := [(9, 0), (2, 5000)],
    transactions := [],
    listings := [⟨1, 9, "Gold ring", 1000, 100, 1000, some 2, 1, 50, .ACTIVE⟩],
    bids := [⟨0, 1, 2, 1000⟩],
    notifications := [],
    nextId := 1 }

/-- Operation sequence for the non-negativity witness: a top-up, an
overdraft attempt, a covered debit, and a settlement sweep. -/
def nonnegOps : List Op :=
  [.credit 2 500 "Top-up",
   .debit 2 999999 "overdraft attempt" .BID_DEDUCTION,
   .debit 2 300 "fee" .LISTING_FEE,
   .settle 200]

/-- Bid calls for the monotonicity witness: buyer `2` opens at the
starting price, buyer `3` raises by the increment. -/
def monoCalls : List BidCall :=
  [⟨0, 1, 2, 1000⟩, ⟨0, 1, 3, 1100⟩]

/-- Master case analysis of `place_bid`: every run either rejects with
some message and leaves the store untouched, or the listing exists, the
minimum-bid check passed, and the run returns the success payload and
commits exactly `bidSuccessUpdate`. -/
theorem place_bid_spec (db : DB) (now lid uid : Nat) (amt : Int) :
    (∃ msg, place_bid db now lid uid amt = (.err msg, db)) ∨
    (∃ l, db.findListing lid = some l ∧
      (∃ bal, db.findWallet uid = some bal ∧ ¬ bal < amt) ∧
      ¬ amt < (if l.highest_bidder_id.isNone then l.current_price
               else l.current_price + l.minimum_increment) ∧
      place_bid db now lid uid amt =
        (.ok db.nextId l.highest_bidder_id l.title l.seller_id,
         bidSuccessUpdate db lid uid amt)) := by
  have hr : place_bid db now lid uid amt = place_bid db now lid uid amt := rfl
  conv at hr => lhs; unfold place_bid
  dsimp only at hr
  repeat' split at hr
  all_goals try exact Or.inl ⟨_, hr.symm⟩
  all_goals refine Or.inr ⟨_, by assumption, ⟨_, by assumption, by assumption⟩,
    ?_, hr.symm⟩
  all_goals split <;> simp_all

/-- C5: every `PlaceBid` invocation that returns a failure leaves the
entire store (listings, bids, wallets, ledger, notifications) exactly as
it was before the call; no partial effect is committed on any of the nine
rejection paths. -/
theorem place_bid_rejection_atomic (db : DB) (now lid uid : Nat) (amt : Int)
    (msg : String) (h : (place_bid db now lid uid amt).1 = .err msg) :
    (place_bid db now lid uid amt).2 = db := by
  rcases place_bid_spec db now lid uid amt with ⟨m, hm⟩ | ⟨l, _, _, _, hok⟩
  · rw [hm]
  · rw [hok] at h
    exact BidResult.noConfusion h

/-- Witness for C5: the seller's self-bid on `demoDB` is rejected and the
store is unchanged. -/
theorem place_bid_rejection_atomic_witness :
    (place_bid demoDB 0 1 9 5000).2 = demoDB :=
  place_bid_rejection_atomic demoDB 0 1 9 5000
    "You cannot bid on your own listing." (by decide)

/-- Helper: the wallets table is untouched by any `place_bid` run. -/
theorem place_bid_wallets_eq (db : DB) (now lid uid : Nat) (amt : Int) :
    (place_bid db now lid uid amt).2.wallets = db.wallets := by
  rcases place_bid_spec db now lid uid amt with ⟨m, hm⟩ | ⟨l, _, _, _, hok⟩
  · rw [hm]
  · rw [hok]
    rfl

/-- Helper: the ledger is untouched by any `place_bid` run. -/
theorem place_bid_transactions_eq (db : DB) (now lid uid : Nat) (amt : Int) :
    (place_bid db now lid uid amt).2.transactions = db.transactions := by
  rcases place_bid_spec db now lid uid amt with ⟨m, hm⟩ | ⟨l, _, _, _, hok⟩
  · rw [hm]
  · rw [hok]
    rfl

/-- C10: `place_bid` never modifies any wallet balance and never appends
any ledger entry, whether it succeeds or rejects; the wallet row is only
read for the sufficiency check. -/
theorem place_bid_wallet_ledger_frame (db : DB) (now lid uid : Nat) (amt : Int) :
    (place_bid db now lid uid amt).2.wallets = db.wallets ∧
    (place_bid db now lid uid amt).2.transactions = db.transactions :=
  ⟨place_bid_wallets_eq db now lid uid amt,
   place_bid_transactions_eq db now lid uid amt⟩

/-- C6: a successful `place_bid` appends exactly one new Bid row carrying
the returned bid id, the listing, the bidder and the amount, and rewrites
the listings table so that only the bid-on listing changes: its
`current_price` becomes the amount, its `highest_bidder_id` becomes the
bidder, and its `bid_count` grows by exactly 1. -/
theorem place_bid_success_postcondition (db : DB) (now lid uid : Nat)
    (amt : Int) (bidId : Nat) (prev : Option Nat) (title : String) (sid : Nat)
    (h : (place_bid db now lid uid amt).1 = .ok bidId prev title sid) :
    (place_bid db now lid uid amt).2.bids =
      db.bids ++ [⟨bidId, lid, uid, amt⟩] ∧
    (place_bid db now lid uid amt).2.listings = db.listings.map (fun l =>
      if l.id = lid then
        { l with current_price := amt, highest_bidder_id := some uid,
                 bid_count := l.bid_count + 1 }
      else l) := by
  rcases place_bid_spec db now lid uid amt with ⟨m, hm⟩ | ⟨l, hfind, hwal, hmin, hok⟩
  · rw [hm] at h
    exact BidResult.noConfusion h
  · rw [hok] at h ⊢
    injection h with h1 h2 h3 h4
    subst h1
    exact ⟨rfl, rfl⟩

/-- Witness for C6: buyer 2's opening bid of 1000 on `demoDB` commits the
expected bid row and listing update. -/
theorem place_bid_success_postcondition_witness :
    (place_bid demoDB 0 1 2 1000).2.bids = demoDB.bids ++ [⟨7, 1, 2, 1000⟩] ∧
    (place_bid demoDB 0 1 2 1000).2.listings = demoDB.listings.map (fun l =>
      if l.id = 1 then
        { l with current_price := 1000, highest_bidder_id := some 2,
                 bid_count := l.bid_count + 1 }
      else l) :=
  place_bid_success_postcondition demoDB 0 1 2 1000 7 none "Vintage bag" 9
    (by decide)

/-- C7: `debit_wallet` rejects a non-positive amount with no state change;
for a positive amount against an existing wallet it fails with the
insufficient-funds error exactly when `balance < amount` (again with no
state change), and otherwise decrements that wallet's balance by the
amount and appends the signed negative ledger entry of the given kind. -/
theorem debit_wallet_semantics (db : DB) (uid : Nat) (amt : Int)
    (descr : String) (kind : TransactionType) (bal : Int)
    (hw : db.findWallet uid = some bal) :
    (amt ≤ 0 →
      debit_wallet db uid amt descr kind =
        (.err "Amount must be positive.", db)) ∧
    (0 < amt → bal < amt →
      debit_wallet db uid amt descr kind =
        (.err (insufficientDebitMsg amt bal), db)) ∧
    (0 < amt → amt ≤ bal →
      (debit_wallet db uid amt descr kind).1 = .ok ∧
      (debit_wallet db uid amt descr kind).2.wallets =
        db.wallets.map (fun w => if w.1 = uid then (w.1, w.2 - amt) else w) ∧
      (debit_wallet db uid amt descr kind).2.transactions =
        db.transactions ++ [⟨uid, kind, -amt, descr, none⟩]) := by
  refine ⟨fun hle => ?_, fun hpos hlt => ?_, fun hpos hge => ?_⟩
  · unfold debit_wallet
    rw [if_pos hle]
  · unfold debit_wallet
    simp only [hw]
    rw [if_neg (not_le.mpr hpos), if_pos hlt]
  · unfold debit_wallet
    simp only [hw]
    rw [if_neg (not_le.mpr hpos), if_neg (not_lt.mpr hge)]
    exact ⟨rfl, rfl, rfl⟩

/-- Witness for C7: an overdraft attempt against buyer 2's 5000-point
wallet fails with the insufficient-funds message and changes nothing. -/
theorem debit_wallet_semantics_witness :
    debit_wallet demoDB 2 999999 "overdraft attempt" .BID_DEDUCTION =
      (.err (insufficientDebitMsg 999999 5000), demoDB) :=
  (debit_wallet_semantics demoDB 2 999999 "overdraft attempt" .BID_DEDUCTION
    5000 (by decide)).2.1 (by decide) (by decide)

/-- C1 (code bug): starting from the reconciled state `reconStart`
(balance 50 backed by one `TOP_UP +50` entry), settling the expired
listing whose winner is underfunded leaves the balance at 50 yet appends
an `AUCTION_WIN_DEDUCTION -100` ledger entry, so the ledger sums to -50
and the reconciliation invariant is broken: `end_expired_auctions` skips
the guarded wallet debit but records the deduction transaction anyway. -/
theorem settlement_ledger_divergence :
    Reconciled reconStart ∧
    reconAfter.findWallet 1 = some 50 ∧
    ledgerSum reconAfter 1 = -50 ∧
    ¬ Reconciled reconAfter := by decide

/-- C8 counterexample: on `noBidderDB`, a bid by nonexistent user 5 on the
existing ACTIVE listing 1 is rejected with the insufficient-funds message,
not with an account-not-found rejection (the code has no such rejection:
the `IS TRUE` suspension check passes for a missing profile row); and with
a missing listing id the listing-existence rejection fires instead, so the
account check does not precede the later precondition checks either. -/
theorem nonexistent_bidder_counterexample :
    (place_bid noBidderDB 0 1 5 100).1 = .err (insufficientPointsMsg 100 0) ∧
    insufficientPointsMsg 100 0 ≠ "Listing not found." ∧
    (place_bid noBidderDB 0 2 5 100).1 = .err "Listing not found." ∧
    (place_bid noBidderDB 0 1 5 100).2 = noBidderDB := by decide

/-- C8 amended: a `PlaceBid` whose bidder has no profile row (and hence no
wallet row) is always rejected with the store left unchanged, but not with
an account-not-found reason: the missing profile passes the `IS TRUE`
suspension check, and once the listing-existence, self-bid, status,
end-time and positivity checks pass, the call is rejected at the
wallet-balance check with the insufficient-funds message rendered with
`COALESCE(balance, 0) = 0`. -/
theorem nonexistent_bidder_amended (db : DB) (now lid uid : Nat) (amt : Int)
    (hp : db.findProfile uid = none) (hw : db.findWallet uid = none) :
    (∃ msg, place_bid db now lid uid amt = (.err msg, db)) ∧
    (∀ l, db.findListing lid = some l → l.seller_id ≠ uid →
      l.status = .ACTIVE → now < l.end_time → 0 < amt →
      place_bid db now lid uid amt =
        (.err (insufficientPointsMsg amt 0), db)) := by
  constructor
  · rcases place_bid_spec db now lid uid amt with ⟨m, hm⟩ | ⟨l, _, hwal, _, _⟩
    · exact ⟨m, hm⟩
    · rcases hwal with ⟨bal, hbal, _⟩
      rw [hw] at hbal
      exact Option.noConfusion hbal
  · intro l hfind hsell hstat htime hpos
    simp only [place_bid, hp, hfind, hw, hsell, hstat, Option.map_none',
      not_le.mpr htime, not_le.mpr hpos]
    simp

/-- Witness for C8's amended statement: nonexistent bidder 5 on
`noBidderDB` is rejected with the zero-balance insufficient-funds
message. -/
theorem nonexistent_bidder_amended_witness :
    place_bid noBidderDB 0 1 5 100 =
      (.err (insufficientPointsMsg 100 0), noBidderDB) :=
  (nonexistent_bidder_amended noBidderDB 0 1 5 100 (by decide) (by decide)).2
    ⟨1, 9, "Leather shoes", 100, 10, 100, none, 0, 50, .ACTIVE⟩
    (by decide) (by decide) (by decide) (by decide) (by decide)

/-- C9 counterexample: on `rebidDB`, buyer 2 — already the highest bidder
at 1000 — re-bids exactly 1000 and is rejected with the below-minimum
message (minimum 1100), not with the dedicated no-op-re-bid message:
check 7 fires before the re-bid check can ever be reached. -/
theorem noop_rebid_counterexample :
    (place_bid rebidDB 0 1 2 1000).1 = .err (belowMinimumMsg 1100) ∧
    belowMinimumMsg 1100 ≠ "You are already the highest bidder at this amount." ∧
    (place_bid rebidDB 0 1 2 1000).2 = rebidDB := by decide

/-- C9 amended: when the bidder is already the highest bidder and re-bids
exactly the current price (and every earlier check passes), the call is
rejected with no side effects, but — because the schema guarantees
`minimum_increment >= 1` — the rejection is the below-minimum one
(`current_price < current_price + minimum_increment`); the dedicated
no-op-re-bid branch of the source is unreachable for such listings. -/
theorem noop_rebid_amended (db : DB) (now lid uid : Nat) (amt : Int)
    (l : Listing) (hfind : db.findListing lid = some l)
    (hhb : l.highest_bidder_id = some uid) (hamt : amt = l.current_price)
    (hincr : 1 ≤ l.minimum_increment)
    (hsusp : (db.findProfile uid).map (fun p => p.is_suspended) ≠ some true)
    (hsell : l.seller_id ≠ uid) (hstat : l.status = .ACTIVE)
    (htime : now < l.end_time) (hpos : 0 < amt)
    (bal : Int) (hw : db.findWallet uid = some bal) (hbal : amt ≤ bal) :
    place_bid db now lid uid amt =
      (.err (belowMinimumMsg (l.current_price + l.minimum_increment)), db) := by
  subst hamt
  simp only [place_bid, hfind, hw, hhb, hsell, hstat, hsusp,
    not_le.mpr htime, not_le.mpr hpos, not_lt.mpr hbal]
  simp [show l.current_price < l.current_price + l.minimum_increment by omega]

/-- Witness for C9's amended statement on `rebidDB`. -/
theorem noop_rebid_amended_witness :
    place_bid rebidDB 0 1 2 1000 =
      (.err (belowMinimumMsg (1000 + 100)), rebidDB) :=
  noop_rebid_amended rebidDB 0 1 2 1000
    ⟨1, 9, "Gold ring", 1000, 100, 1000, some 2, 1, 50, .ACTIVE⟩
    (by decide) (by decide) (by decide) (by decide) (by decide) (by decide)
    (by decide) (by decide) (by decide) 5000 (by decide) (by decide)

/-- Mapping a key-preserving function over the wallets leaves the list of
wallet keys unchanged. -/
theorem map_fst_pres (l : List (Nat × Int)) (f : Nat × Int → Nat × Int)
    (hf : ∀ p, (f p).1 = p.1) : (l.map f).map Prod.fst = l.map Prod.fst := by
  induction l with
  | nil => rfl
  | cons a t ih => simp only [List.map_cons, hf, ih]

/-- `settleOne` only rewrites the settled listing's status to ENDED. -/
theorem settleOne_listings (db : DB) (r : Listing) :
    (settleOne db r).listings = db.listings.map (fun l =>
      if l.id = r.id then { l with status := .ENDED } else l) := by
  unfold settleOne
  cases r.highest_bidder_id <;> rfl

/-- The wallets after `settleOne`: unchanged when there is no winner,
otherwise debited by the guarded per-row update. -/
theorem settleOne_wallets (db : DB) (r : Listing) :
    (settleOne db r).wallets =
      match r.highest_bidder_id with
      | none => db.wallets
      | some w => db.wallets.map (fun p =>
          if p.1 = w ∧ r.current_price ≤ p.2 then
            (p.1, p.2 - r.current_price)
          else p) := by
  unfold settleOne
  cases r.highest_bidder_id <;> rfl

theorem settleOne_wallet_keys (db : DB) (r : Listing) :
    (settleOne db r).wallets.map Prod.fst = db.wallets.map Prod.fst := by
  rw [settleOne_wallets]
  cases r.highest_bidder_id
  · rfl
  · exact map_fst_pres _ _ (fun p => by split <;> rfl)

theorem settleOne_nonneg (db : DB) (r : Listing)
    (h : NonNegBalances db) : NonNegBalances (settleOne db r) := by
  intro w hw
  rw [settleOne_wallets] at hw
  cases hhb : r.highest_bidder_id with
  | none =>
    rw [hhb] at hw
    exact h w hw
  | some winner =>
    simp only [hhb] at hw
    rcases List.mem_map.mp hw with ⟨p, hp, rfl⟩
    have hnn := h p hp
    by_cases hc : p.1 = winner ∧ r.current_price ≤ p.2
    · rw [if_pos hc]
      show 0 ≤ p.2 - r.current_price
      omega
    · rw [if_neg hc]
      exact hnn

theorem settle_fold_nonneg :
    ∀ (rows : List Listing) (acc : Nat) (db : DB), NonNegBalances db →
      NonNegBalances
        ((rows.foldl (fun a r => (a.1 + 1, settleOne a.2 r)) (acc, db)).2) := by
  intro rows
  induction rows with
  | nil => exact fun acc db h => h
  | cons r rest ih =>
    intro acc db h
    simp only [List.foldl_cons]
    exact ih (acc + 1) (settleOne db r) (settleOne_nonneg db r h)

theorem settle_fold_wallet_keys :
    ∀ (rows : List Listing) (acc : Nat) (db : DB),
      ((rows.foldl (fun a r => (a.1 + 1, settleOne a.2 r)) (acc, db)).2).wallets.map
          Prod.fst =
        db.wallets.map Prod.fst := by
  intro rows
  induction rows with
  | nil => exact fun acc db => rfl
  | cons r rest ih =>
    intro acc db
    simp only [List.foldl_cons]
    rw [ih (acc + 1) (settleOne db r), settleOne_wallet_keys]

theorem credit_wallet_nonneg (db : DB) (uid : Nat) (amt : Int) (d : String)
    (h : NonNegBalances db) : NonNegBalances (credit_wallet db uid amt d).2 := by
  by_cases hamt : amt ≤ 0
  · unfold credit_wallet
    rw [if_pos hamt]
    exact h
  · unfold credit_wallet
    rw [if_neg hamt]
    cases hf : db.findWallet uid with
    | none => exact h
    | some bal =>
      intro w hw
      rcases List.mem_map.mp hw with ⟨p, hp, rfl⟩
      have hnn := h p hp
      by_cases hc : p.1 = uid
      · rw [if_pos hc]
        show 0 ≤ p.2 + amt
        omega
      · rw [if_neg hc]
        exact hnn

/-- The wallet row found by `findWallet` carries the reported balance, is a
member of the table, and has the looked-up key. -/
theorem findWallet_mem (db : DB) (uid : Nat) (bal : Int)
    (h : db.findWallet uid = some bal) :
    ∃ q ∈ db.wallets, q.1 = uid ∧ q.2 = bal := by
  unfold DB.findWallet at h
  cases hf : db.wallets.find? (fun w => w.1 == uid) with
  | none => rw [hf] at h; exact Option.noConfusion h
  | some q =>
    rw [hf] at h
    refine ⟨q, List.mem_of_find?_eq_some hf, ?_, ?_⟩
    · have hb := List.find?_some hf
      simpa using hb
    · exact Option.some.inj h

theorem debit_wallet_nonneg (db : DB) (uid : Nat) (amt : Int) (d : String)
    (k : TransactionType) (h : NonNegBalances db) (hu : WalletKeysNodup db) :
    NonNegBalances (debit_wallet db uid amt d k).2 := by
  by_cases hamt : amt ≤ 0
  · unfold debit_wallet
    rw [if_pos hamt]
    exact h
  · unfold debit_wallet
    rw [if_neg hamt]
    cases hf : db.findWallet uid with
    | none => exact h
    | some bal =>
      dsimp only
      by_cases hlt : bal < amt
      · rw [if_pos hlt]
        exact h
      · rw [if_neg hlt]
        intro w hw
        rcases List.mem_map.mp hw with ⟨p, hp, rfl⟩
        have hnn := h p hp
        by_cases hc : p.1 = uid
        · rcases findWallet_mem db uid bal hf with ⟨q, hq, hq1, hq2⟩
          have hpq : p = q :=
            List.inj_on_of_nodup_map hu hp hq (by rw [hc, hq1])
          rw [if_pos hc]
          show 0 ≤ p.2 - amt
          rw [hpq]
          omega
        · rw [if_neg hc]
          exact hnn

/-- One core operation preserves the wallet key list. -/
theorem applyOp_wallet_keys (db : DB) (op : Op) :
    (applyOp db op).wallets.map Prod.fst = db.wallets.map Prod.fst := by
  cases op with
  | placeBid now lid uid amount =>
    show (place_bid db now lid uid amount).2.wallets.map Prod.fst = _
    rw [place_bid_wallets_eq db now lid uid amount]
  | credit uid amount descr =>
    show (credit_wallet db uid amount descr).2.wallets.map Prod.fst = _
    unfold credit_wallet
    split
    · rfl
    · split
      · rfl
      · refine map_fst_pres _ _ ?_
        intro p
        split <;> rfl
  | debit uid amount descr kind =>
    show (debit_wallet db uid amount descr kind).2.wallets.map Prod.fst = _
    unfold debit_wallet
    split
    · rfl
    · split
      · rfl
      · split
        · rfl
        · refine map_fst_pres _ _ ?_
          intro p
          split <;> rfl
  | settle now =>
    show ((end_expired_auctions db now).2).wallets.map Prod.fst = _
    unfold end_expired_auctions
    exact settle_fold_wallet_keys _ 0 db

/-- One core operation preserves non-negativity of all balances (given the
wallet primary key is unique, as the schema enforces). -/
theorem applyOp_nonneg (db : DB) (op : Op) (h : NonNegBalances db)
    (hu : WalletKeysNodup db) : NonNegBalances (applyOp db op) := by
  cases op with
  | placeBid now lid uid amount =>
    intro w hw
    rw [show (applyOp db (.placeBid now lid uid amount)).wallets =
        (place_bid db now lid uid amount).2.wallets from rfl,
      place_bid_wallets_eq db now lid uid amount] at hw
    exact h w hw
  | credit uid amount descr => exact credit_wallet_nonneg db uid amount descr h
  | debit uid amount descr kind =>
    exact debit_wallet_nonneg db uid amount descr kind h hu
  | settle now =>
    show NonNegBalances (end_expired_auctions db now).2
    unfold end_expired_auctions
    exact settle_fold_nonneg _ 0 db h

theorem applyOps_nonneg :
    ∀ (ops : List Op) (db : DB), NonNegBalances db → WalletKeysNodup db →
      NonNegBalances (applyOps db ops) := by
  intro ops
  induction ops with
  | nil => exact fun db h _ => h
  | cons op rest ih =>
    intro db h hu
    have hu' : WalletKeysNodup (applyOp db op) := by
      unfold WalletKeysNodup
      rw [applyOp_wallet_keys]
      exact hu
    exact ih (applyOp db op) (applyOp_nonneg db op h hu) hu'

/-- C2: starting from a store with non-negative balances (and unique
wallet keys, as the schema's primary key guarantees), every prefix of any
sequence of core operations leaves every balance `>= 0`; moreover a Debit
whose amount exceeds the wallet's current balance is rejected with zero
effect on the store. The settlement debit of an underfunded winner is
covered by the first part: its guarded update never charges a wallet
beyond its balance. -/
theorem balance_nonnegativity (db : DB) (ops : List Op)
    (h0 : NonNegBalances db) (hu : WalletKeysNodup db) :
    (∀ n, NonNegBalances (applyOps db (ops.take n))) ∧
    (∀ uid amt descr kind bal, db.findWallet uid = some bal → bal < amt →
      (debit_wallet db uid amt descr kind).2 = db) := by
  constructor
  · exact fun n => applyOps_nonneg (ops.take n) db h0 hu
  · intro uid amt descr kind bal hw hlt
    unfold debit_wallet
    by_cases hamt : amt ≤ 0
    · rw [if_pos hamt]
    · rw [if_neg hamt]
      simp only [hw]
      rw [if_pos hlt]

/-- Witness for C2 on `demoDB` with the `nonnegOps` sequence. -/
theorem balance_nonnegativity_witness :
    NonNegBalances (applyOps demoDB (nonnegOps.take 4)) ∧
    (debit_wallet demoDB 2 999999 "w" .BID_DEDUCTION).2 = demoDB :=
  ⟨(balance_nonnegativity demoDB nonnegOps (by decide) (by decide)).1 4,
   (balance_nonnegativity demoDB nonnegOps (by decide) (by decide)).2
     2 999999 "w" .BID_DEDUCTION 5000 (by decide) (by decide)⟩

/-- After the settlement loop has processed a row set that covers every
expired ACTIVE listing, no listing is both ACTIVE and expired. -/
theorem settle_fold_clears (now : Nat) :
    ∀ (rows : List Listing) (acc : Nat) (db : DB),
      (∀ l ∈ db.listings, l.status = .ACTIVE → l.end_time ≤ now →
        l.id ∈ rows.map Listing.id) →
      ∀ l ∈ ((rows.foldl (fun a r => (a.1 + 1, settleOne a.2 r))
          (acc, db)).2).listings,
        l.status = .ACTIVE → now < l.end_time := by
  intro rows
  induction rows with
  | nil =>
    intro acc db h l hl hact
    by_contra hlt
    have hle : l.end_time ≤ now := Nat.le_of_not_lt hlt
    have hmem := h l hl hact hle
    simp at hmem
  | cons r rest ih =>
    intro acc db h
    simp only [List.foldl_cons]
    apply ih (acc + 1) (settleOne db r)
    intro l hl hact hle
    rw [settleOne_listings] at hl
    rcases List.mem_map.mp hl with ⟨l0, hl0, rfl⟩
    by_cases hid : l0.id = r.id
    · rw [if_pos hid] at hact
      simp at hact
    · rw [if_neg hid] at hact hle ⊢
      have hmem := h l0 hl0 hact hle
      simp only [List.map_cons, List.mem_cons] at hmem
      rcases hmem with hmem | hmem
      · exact absurd hmem hid
      · exact hmem

/-- A store in which no listing is both ACTIVE and expired is a fixed
point of the settlement sweep. -/
theorem settle_fixed_point (now : Nat) (db1 : DB)
    (hcl : ∀ l ∈ db1.listings, l.status = .ACTIVE → now < l.end_time) :
    (end_expired_auctions db1 now).2 = db1 := by
  unfold end_expired_auctions
  dsimp only
  have hfil : db1.listings.filter
      (fun l => l.status == .ACTIVE && decide (l.end_time ≤ now)) = [] := by
    apply List.filter_eq_nil_iff.mpr
    intro l hl hpred
    simp only [Bool.and_eq_true, beq_iff_eq, decide_eq_true_eq] at hpred
    exact absurd (hcl l hl hpred.1) (by omega)
  rw [hfil]
  rfl

/-- C3: the settlement sweep is idempotent: a second run at the same
instant, with no intervening operations, leaves the state after the first
run unchanged — no listing is transitioned twice and no duplicate winner
debit, ledger entry, or notification is produced, because the first run
has moved every expired ACTIVE listing to ENDED and the selection
predicate then matches no row. -/
theorem settle_idempotent (db : DB) (now : Nat) :
    (end_expired_auctions (end_expired_auctions db now).2 now).2 =
      (end_expired_auctions db now).2 := by
  apply settle_fixed_point
  show ∀ l ∈ ((end_expired_auctions db now).2).listings, _
  unfold end_expired_auctions
  dsimp only
  apply settle_fold_clears now
  intro l hl hact hle
  apply List.mem_map_of_mem
  exact List.mem_filter.mpr ⟨hl, by simp [hact, hle]⟩

theorem find?_of_map {α β : Type} (f : α → β) (p : β → Bool) :
    ∀ l : List α, (l.map f).find? p = (l.find? (fun a => p (f a))).map f := by
  intro l
  induction l with
  | nil => rfl
  | cons a t ih =>
    simp only [List.map_cons, List.find?]
    by_cases h : p (f a) = true
    · rw [h]
      rfl
    · rw [Bool.of_not_eq_true h, ih]

theorem findListing_id (db : DB) (lid : Nat) (l : Listing)
    (h : db.findListing lid = some l) : l.id = lid := by
  unfold DB.findListing at h
  cases hf : db.listings.find? (fun x => x.id == lid) with
  | none =>
    rw [hf] at h
    exact Option.noConfusion h
  | some q =>
    rw [hf] at h
    cases Option.some.inj h
    simpa using List.find?_some hf

theorem findListing_mem_listings (db : DB) (lid : Nat) (l : Listing)
    (h : db.findListing lid = some l) : l ∈ db.listings := by
  unfold DB.findListing at h
  cases hf : db.listings.find? (fun x => x.id == lid) with
  | none =>
    rw [hf] at h
    exact Option.noConfusion h
  | some q =>
    rw [hf] at h
    cases Option.some.inj h
    exact List.mem_of_find?_eq_some hf

/-- Looking up any listing after the success update of `place_bid`
rewrites the looked-up row through the same per-row update. -/
theorem findListing_bidSuccessUpdate (db : DB) (tid uid : Nat) (amt : Int)
    (lid : Nat) :
    (bidSuccessUpdate db tid uid amt).findListing lid =
      (db.findListing lid).map (fun l =>
        if l.id = tid then
          { l with current_price := amt, highest_bidder_id := some uid,
                   bid_count := l.bid_count + 1 }
        else l) := by
  unfold bidSuccessUpdate DB.findListing
  dsimp only
  rw [find?_of_map]
  have hp : (fun l : Listing =>
      (if l.id = tid then
        { l with current_price := amt, highest_bidder_id := some uid,
                 bid_count := l.bid_count + 1 }
       else l).id == lid) = (fun l : Listing => l.id == lid) := by
    funext l
    by_cases h : l.id = tid
    · rw [if_pos h]
    · rw [if_neg h]
  rw [hp]

/-- The success update of a bid on another listing does not change the
lookup of listing `lid`. -/
theorem findListing_bidSuccessUpdate_ne (db : DB) (tid uid : Nat) (amt : Int)
    (lid : Nat) (hne : lid ≠ tid) :
    (bidSuccessUpdate db tid uid amt).findListing lid = db.findListing lid := by
  rw [findListing_bidSuccessUpdate]
  cases hf : db.findListing lid with
  | none => rfl
  | some l =>
    have hid : l.id = lid := findListing_id db lid l hf
    dsimp only [Option.map]
    rw [if_neg (by rw [hid]; exact hne)]

theorem bidSuccessUpdate_incr (db : DB) (tid uid : Nat) (amt : Int)
    (h : IncrPositive db) : IncrPositive (bidSuccessUpdate db tid uid amt) := by
  intro l hl
  unfold bidSuccessUpdate at hl
  dsimp only at hl
  rcases List.mem_map.mp hl with ⟨l0, hl0, rfl⟩
  have h0 := h l0 hl0
  by_cases hc : l0.id = tid
  · rw [if_pos hc]
    exact h0
  · rw [if_neg hc]
    exact h0

/-- An accepted `place_bid` implies: the listing exists, the amount met
the minimum computed from the pre-state, and the committed state is the
success update. -/
theorem place_bid_ok_facts (db : DB) (now lid uid : Nat) (amt : Int)
    (h : (place_bid db now lid uid amt).1.isOk = true) :
    ∃ l, db.findListing lid = some l ∧
      minimumBidOf db lid ≤ amt ∧
      (place_bid db now lid uid amt).2 = bidSuccessUpdate db lid uid amt := by
  rcases place_bid_spec db now lid uid amt with ⟨m, hm⟩ | ⟨l, hfind, _, hmin, hok⟩
  · rw [hm] at h
    simp [BidResult.isOk] at h
  · refine ⟨l, hfind, ?_, by rw [hok]⟩
    unfold minimumBidOf
    rw [hfind]
    dsimp only
    exact not_lt.mp hmin

theorem place_bid_not_ok_unchanged (db : DB) (now lid uid : Nat) (amt : Int)
    (h : (place_bid db now lid uid amt).1.isOk = false) :
    (place_bid db now lid uid amt).2 = db := by
  rcases place_bid_spec db now lid uid amt with ⟨m, hm⟩ | ⟨l, _, _, _, hok⟩
  · rw [hm]
  · rw [hok] at h
    simp [BidResult.isOk] at h

/-- Unfolding equation of `acceptedWithMin` on a cons cell. -/
theorem acceptedWithMin_cons (db : DB) (lid : Nat) (c : BidCall)
    (rest : List BidCall) :
    acceptedWithMin db lid (c :: rest) =
      (if c.listing_id = lid ∧
          (place_bid db c.now c.listing_id c.bidder_id c.amount).1.isOk =
            true then
        [(c.amount, minimumBidOf db lid)]
       else []) ++
        acceptedWithMin
          (place_bid db c.now c.listing_id c.bidder_id c.amount).2 lid rest :=
  rfl

/-- Main induction for C4: over any run of `PlaceBid` calls from a store
whose listings all satisfy the increment CHECK, the accepted amounts on a
fixed listing are strictly increasing, each accepted amount meets the
minimum computed just before it, and (for the induction) once the listing
has a highest bidder every later accepted amount exceeds its current
price. -/
theorem acceptedWithMin_spec (lid : Nat) :
    ∀ (calls : List BidCall) (db : DB), IncrPositive db →
      List.Chain' (fun a b : Int => a < b)
        ((acceptedWithMin db lid calls).map Prod.fst) ∧
      (∀ p ∈ acceptedWithMin db lid calls, p.2 ≤ p.1) ∧
      (∀ l, db.findListing lid = some l → l.highest_bidder_id ≠ none →
        ∀ a ∈ (acceptedWithMin db lid calls).map Prod.fst,
          l.current_price < a) := by
  intro calls
  induction calls with
  | nil =>
    intro db h
    refine ⟨?_, ?_, ?_⟩ <;> simp [acceptedWithMin]
  | cons c rest ih =>
    intro db hincr
    by_cases hacc : c.listing_id = lid ∧
        (place_bid db c.now c.listing_id c.bidder_id c.amount).1.isOk = true
    · obtain ⟨hlid, hok⟩ := hacc
      obtain ⟨l, hfind, hminle, hdb2⟩ :=
        place_bid_ok_facts db c.now c.listing_id c.bidder_id c.amount hok
      rw [hlid] at hfind hminle
      have hl_id : l.id = lid := findListing_id db lid l hfind
      have hlmem : l ∈ db.listings := findListing_mem_listings db lid l hfind
      have hincr2 : IncrPositive
          (bidSuccessUpdate db lid c.bidder_id c.amount) := by
        rw [← hlid]
        exact bidSuccessUpdate_incr db c.listing_id c.bidder_id c.amount hincr
      have hfind2 :
          (bidSuccessUpdate db lid c.bidder_id c.amount).findListing lid =
            some { l with current_price := c.amount,
                          highest_bidder_id := some c.bidder_id,
                          bid_count := l.bid_count + 1 } := by
        rw [findListing_bidSuccessUpdate, hfind]
        dsimp only [Option.map]
        rw [if_pos hl_id]
      obtain ⟨ihchain, ihmins, ihgt⟩ :=
        ih (bidSuccessUpdate db lid c.bidder_id c.amount) hincr2
      have hstep := acceptedWithMin_cons db lid c rest
      rw [if_pos ⟨hlid, hok⟩, hdb2, hlid, List.singleton_append] at hstep
      refine ⟨?_, ?_, ?_⟩
      · rw [hstep]
        simp only [List.map_cons]
        rw [List.chain'_cons']
        refine ⟨?_, ihchain⟩
        intro y hy
        exact ihgt _ hfind2 (by simp) y (List.mem_of_mem_head? hy)
      · rw [hstep]
        intro p hp
        rcases List.mem_cons.mp hp with rfl | hp'
        · exact hminle
        · exact ihmins p hp'
      · intro l0 hf0 hhb a ha
        rw [hfind] at hf0
        cases Option.some.inj hf0
        obtain ⟨w, hw⟩ := Option.ne_none_iff_exists'.mp hhb
        have hmi : 1 ≤ l.minimum_increment := hincr l hlmem
        have hmin_eq : minimumBidOf db lid =
            l.current_price + l.minimum_increment := by
          unfold minimumBidOf
          rw [hfind]
          dsimp only
          rw [if_neg (by rw [hw]; simp)]
        have hca : l.current_price < c.amount := by
          rw [hmin_eq] at hminle
          omega
        rw [hstep] at ha
        simp only [List.map_cons, List.mem_cons] at ha
        rcases ha with rfl | ha'
        · exact hca
        · have hlt2 : c.amount < a := ihgt _ hfind2 (by simp) a ha'
          omega
    · have hstep := acceptedWithMin_cons db lid c rest
      rw [if_neg hacc, List.nil_append] at hstep
      cases hok : (place_bid db c.now c.listing_id c.bidder_id c.amount).1.isOk
        with
      | false =>
        have hunch :=
          place_bid_not_ok_unchanged db c.now c.listing_id c.bidder_id
            c.amount hok
        rw [hunch] at hstep
        obtain ⟨ihchain, ihmins, ihgt⟩ := ih db hincr
        exact ⟨by rw [hstep]; exact ihchain,
               by rw [hstep]; exact ihmins,
               fun l0 hf0 hhb a ha =>
                 ihgt l0 hf0 hhb a (by rw [hstep] at ha; exact ha)⟩
      | true =>
        have hne : c.listing_id ≠ lid := fun he => hacc ⟨he, hok⟩
        obtain ⟨l, hfind, hminle, hdb2⟩ :=
          place_bid_ok_facts db c.now c.listing_id c.bidder_id c.amount hok
        have hincr2 : IncrPositive
            (bidSuccessUpdate db c.listing_id c.bidder_id c.amount) :=
          bidSuccessUpdate_incr db c.listing_id c.bidder_id c.amount hincr
        have hfr : (bidSuccessUpdate db c.listing_id c.bidder_id
            c.amount).findListing lid = db.findListing lid :=
          findListing_bidSuccessUpdate_ne db c.listing_id c.bidder_id c.amount
            lid (fun he => hne he.symm)
        rw [hdb2] at hstep
        obtain ⟨ihchain, ihmins, ihgt⟩ :=
          ih (bidSuccessUpdate db c.listing_id c.bidder_id c.amount) hincr2
        exact ⟨by rw [hstep]; exact ihchain,
               by rw [hstep]; exact ihmins,
               fun l0 hf0 hhb a ha =>
                 ihgt l0 (by rw [hfr]; exact hf0) hhb a
                   (by rw [hstep] at ha; exact ha)⟩

/-- C4: for every listing, over any sequence of `PlaceBid` calls against a
store whose listings satisfy the schema CHECK `minimum_increment >= 1`,
the amounts of the accepted bids form a strictly increasing sequence, and
each accepted amount is at least the minimum computed from the state
immediately before it (current price for a first bid, current price plus
increment otherwise). -/
theorem bid_monotonicity (db : DB) (lid : Nat) (calls : List BidCall)
    (hincr : IncrPositive db) :
    List.Chain' (fun a b : Int => a < b)
      ((acceptedWithMin db lid calls).map Prod.fst) ∧
    ∀ p ∈ acceptedWithMin db lid calls, p.2 ≤ p.1 :=
  ⟨(acceptedWithMin_spec lid calls db hincr).1,
   (acceptedWithMin_spec lid calls db hincr).2.1⟩

/-- Witness for C4: the two accepted bids of `monoCalls` on `demoDB`. -/
theorem bid_monotonicity_witness :
    List.Chain' (fun a b : Int => a < b)
      ((acceptedWithMin demoDB 1 monoCalls).map Prod.fst) ∧
    ∀ p ∈ acceptedWithMin demoDB 1 monoCalls, p.2 ≤ p.1 :=
  bid_monotonicity demoDB 1 monoCalls (by decide)

-- Concrete evaluations: the spec's "Testable properties" scenario and the
-- states used by the claim-level counterexamples and witnesses.
example : (place_bid demoDB 0 1 2 1000).1 = .ok 7 none "Vintage bag" 9 := by decide
example :
    (place_bid (place_bid demoDB 0 1 2 1000).2 0 1 3 1050).1 =
      .err (belowMinimumMsg 1100) := by decide
example : ((place_bid (place_bid demoDB 0 1 2 1000).2 0 1 3 1100).1).isOk = true := by decide
example : Reconciled reconStart := by decide
example : reconAfter.findWallet 1 = some 50 := by decide
example : ledgerSum reconAfter 1 = -50 := by decide
example : (place_bid noBidderDB 0 1 5 100).1 = .err (insufficientPointsMsg 100 0) := by decide
example : (place_bid rebidDB 0 1 2 1000).1 = .err (belowMinimumMsg 1100) := by decide
example : acceptedWithMin demoDB 1 monoCalls = [(1000, 1000), (1100, 1100)] := by decide
example : NonNegBalances (applyOps demoDB nonnegOps) := by decide

end BidHub
